import Mathlib

/-
Verification of the event-suggestion promotion workflow of the
dme-connect-alumni portal.

The embedding follows `src/pages/Directory.tsx`, which contains the whole
workflow: the `EventSuggestions` client component (`fetchSuggestions`,
`handleVote`, `handleComment`), the `SuggestEventPage` creation form
(`handleSubmit` in `pages/suggest-event.tsx`, inlined in the same file),
the server-side promotion endpoint
(`handler` in `pages/api/promote-suggestions.ts`, inlined in the same
file), and the SQL schema (`supabase_migrations.sql`, also inlined).

Storage is modelled as four append-ordered ledgers (lists of rows), one per
table.  Identifiers and timestamps are `Nat`; nullable SQL columns are
`Option`-typed.  Fallible storage calls of the promotion job are driven by
an explicit failure oracle so that the endpoint's error paths can be
examined.
-/

namespace DmeConnect

/-- Row of `public.event_suggestions` (title NOT NULL, the rest nullable). -/
structure Suggestion where
  id : Nat
  title : String
  description : Option String
  location : Option String
  proposed_date : Option Nat
  created_by : Option Nat
  created_at : Nat
  deriving DecidableEq, Repr

/-- Row of `public.event_votes`; the schema declares UNIQUE (suggestion_id, voter_id). -/
structure Vote where
  id : Nat
  suggestion_id : Nat
  voter_id : Nat
  created_at : Nat
  deriving DecidableEq, Repr

/-- Row of `public.event_comments` (content NOT NULL). -/
structure Comment where
  id : Nat
  suggestion_id : Nat
  commenter_id : Nat
  content : String
  created_at : Nat
  deriving DecidableEq, Repr

/-- The record the promotion job inserts into `public.events`
(id and created_at are generated by the database and not part of the insert). -/
structure EventRec where
  title : String
  description : Option String
  location : Option String
  event_date : Option Nat
  organizer_id : Option Nat
  deriving DecidableEq, Repr

/-- The four tables touched by the workflow, each as an append-ordered ledger. -/
structure DB where
  suggestions : List Suggestion
  votes : List Vote
  comments : List Comment
  events : List EventRec
  deriving DecidableEq, Repr

/-- All vote rows of one suggestion (the `event_votes(id)` embedded select). -/
def votesFor (votes : List Vote) (sid : Nat) : List Vote :=
  votes.filter (fun v => v.suggestion_id == sid)

/-- All vote rows of one (suggestion, voter) pair
(the `.eq('suggestion_id', ...).eq('voter_id', ...)` filter in `handleVote`). -/
def pairVotes (votes : List Vote) (sid uid : Nat) : List Vote :=
  votes.filter (fun v => v.suggestion_id == sid && v.voter_id == uid)

/-- All comment rows of one suggestion (the `event_comments(...)` embedded select). -/
def commentsFor (comments : List Comment) (sid : Nat) : List Comment :=
  comments.filter (fun c => c.suggestion_id == sid)

/-- Number of vote rows for one (suggestion, voter) pair. -/
def pairCount (db : DB) (sid uid : Nat) : Nat :=
  (pairVotes db.votes sid uid).length

/-- Outcome of `handleVote`: the login toast, the un-vote path, or the insert path. -/
inductive VoteOutcome where
  | loginRequired
  | removedVote
  | addedVote
  deriving DecidableEq, Repr

/-- `handleVote` from Directory.tsx: no user → login toast; an existing
(suggestion, voter) vote row → delete all rows of the pair (toggle off);
otherwise insert one new vote row. -/
def handleVote (userId : Option Nat) (suggestionId : Nat) (freshId now : Nat)
    (db : DB) : VoteOutcome × DB :=
  match userId with
  | none => (.loginRequired, db)
  | some uid =>
    let existing := pairVotes db.votes suggestionId uid
    if existing.length > 0 then
      (.removedVote,
        { db with votes :=
            db.votes.filter (fun v => !(v.suggestion_id == suggestionId && v.voter_id == uid)) })
    else
      (.addedVote,
        { db with votes :=
            db.votes ++ [{ id := freshId, suggestion_id := suggestionId,
                           voter_id := uid, created_at := now }] })

/-- Characters-level both-ends whitespace strip. -/
def trimChars (cs : List Char) : List Char :=
  ((cs.dropWhile Char.isWhitespace).reverse.dropWhile Char.isWhitespace).reverse

/-- The JS `String.prototype.trim()` used by `handleComment`: strip
whitespace from both ends of the string. -/
def jsTrim (s : String) : String :=
  String.mk (trimChars s.data)

/-- Outcome of `handleComment`: blank-content early return, login toast, or insert. -/
inductive CommentOutcome where
  | blankContent
  | loginRequired
  | addedComment
  deriving DecidableEq, Repr

/-- `handleComment` from Directory.tsx: the content is trimmed and, when the
result is empty, the function returns before anything else (in particular
before the auth lookup); then no user → login toast; otherwise the trimmed
comment row is inserted. -/
def handleComment (userId : Option Nat) (suggestionId : Nat) (rawText : String)
    (freshId now : Nat) (db : DB) : CommentOutcome × DB :=
  let content := jsTrim rawText
  if content == "" then
    (.blankContent, db)
  else
    match userId with
    | none => (.loginRequired, db)
    | some uid =>
      (.addedComment,
        { db with comments :=
            db.comments ++ [{ id := freshId, suggestion_id := suggestionId,
                              commenter_id := uid, content := content, created_at := now }] })

/-- One entry of the suggestion feed: the row plus its aggregated votes and
its embedded comment list. -/
structure FeedItem where
  suggestion : Suggestion
  vote_count : Nat
  votes : List Vote
  comments : List Comment
  deriving DecidableEq, Repr

/-- `fetchSuggestions` from Directory.tsx: suggestions ordered newest-first,
each mapped with `vote_count` = length of its embedded vote array and with
its embedded comments in ledger order (the query orders only the
suggestions; no ordering is applied to the embedded comments). -/
def fetchSuggestions (db : DB) : List FeedItem :=
  (db.suggestions.mergeSort (fun a b => decide (b.created_at ≤ a.created_at))).map
    (fun s =>
      { suggestion := s
        vote_count := (votesFor db.votes s.id).length
        votes := votesFor db.votes s.id
        comments := commentsFor db.comments s.id })

/-- `handleSubmit` from pages/suggest-event.tsx (inlined in Directory.tsx):
inserts one suggestion row built from the form fields — `title` and
`description` as typed, an empty `location` coerced to null
(`location || null`), an empty date field coerced to null (`date || null`,
modelled as the `Option`), and `created_by` set to the current user id or
null when signed out (`userRes.data.user?.id ?? null`; the form has no auth
gate). The row id and created_at are generated by the database. -/
def handleSubmit (userId : Option Nat) (title description location : String)
    (date : Option Nat) (freshId now : Nat) (db : DB) : DB :=
  { db with suggestions :=
      db.suggestions ++ [{ id := freshId, title := title,
                           description := some description,
                           location := if location == "" then none else some location,
                           proposed_date := date,
                           created_by := userId,
                           created_at := now }] }

/-- Failure oracle for the promotion endpoint's four storage writes per
candidate, keyed by the candidate's suggestion id. -/
structure PromoOracle where
  insertEventFails : Nat → Bool
  deleteVotesFails : Nat → Bool
  deleteCommentsFails : Nat → Bool
  deleteSuggestionFails : Nat → Bool

/-- The insert record the promotion endpoint builds for a candidate:
title, description, location copied; proposed_date → event_date;
created_by → organizer_id. -/
def eventOfSuggestion (s : Suggestion) : EventRec :=
  { title := s.title
    description := s.description
    location := s.location
    event_date := s.proposed_date
    organizer_id := s.created_by }

/-- One iteration of the promotion loop: insert the event (on failure,
`continue` — nothing else happens for this candidate); then the three
cleanup deletes, whose errors the code never checks (a failed delete simply
leaves the rows); finally `promoted.push(s.id)`. -/
def promoteStep (oracle : PromoOracle) (acc : DB × List Nat) (s : Suggestion) :
    DB × List Nat :=
  let db := acc.1
  let promoted := acc.2
  if oracle.insertEventFails s.id then
    (db, promoted)
  else
    let db1 := { db with events := db.events ++ [eventOfSuggestion s] }
    let db2 :=
      if oracle.deleteVotesFails s.id then db1
      else { db1 with votes := db1.votes.filter (fun v => !(v.suggestion_id == s.id)) }
    let db3 :=
      if oracle.deleteCommentsFails s.id then db2
      else { db2 with comments := db2.comments.filter (fun c => !(c.suggestion_id == s.id)) }
    let db4 :=
      if oracle.deleteSuggestionFails s.id then db3
      else { db3 with suggestions := db3.suggestions.filter (fun t => !(t.id == s.id)) }
    (db4, promoted ++ [s.id])

/-- The JSON-level response of the promotion endpoint. -/
structure PromoResponse where
  status : Nat
  promoted : List Nat
  error : Option String
  deriving DecidableEq, Repr

/-- The promotion candidates: suggestions fetched oldest-first with their
embedded vote arrays, filtered by `(s.event_votes?.length ?? 0) >= VOTE_THRESHOLD`.
The counts come from this one fetch, taken before the loop runs. -/
def toPromote (threshold : Nat) (db : DB) : List Suggestion :=
  (db.suggestions.mergeSort (fun a b => decide (a.created_at ≤ b.created_at))).filter
    (fun s => decide (threshold ≤ (votesFor db.votes s.id).length))

/-- `handler` from pages/api/promote-suggestions.ts: a missing (absent or
empty) SUPABASE_SERVICE_ROLE_KEY returns status 500 with an error payload
and touches nothing; otherwise the candidate list is computed once and the
promotion loop folds over it, returning status 200 with the pushed ids. -/
def handler (serviceRoleKey : Option String) (threshold : Nat)
    (oracle : PromoOracle) (db : DB) : PromoResponse × DB :=
  if serviceRoleKey.getD "" == "" then
    ({ status := 500, promoted := [], error := some "Missing service role key" }, db)
  else
    let result := (toPromote threshold db).foldl (promoteStep oracle) (db, [])
    ({ status := 200, promoted := result.2, error := none }, result.1)

/-- An operation of the workflow, for stating state invariants over
arbitrary interleavings of casts, comments, creations and promotion runs. -/
inductive Op where
  | vote (userId : Option Nat) (suggestionId freshId now : Nat)
  | comment (userId : Option Nat) (suggestionId : Nat) (rawText : String) (freshId now : Nat)
  | create (userId : Option Nat) (title description location : String)
      (date : Option Nat) (freshId now : Nat)
  | promote (serviceRoleKey : Option String) (threshold : Nat) (oracle : PromoOracle)

/-- State transition of one operation (the response is dropped). -/
def applyOp (op : Op) (db : DB) : DB :=
  match op with
  | .vote u sid f n => (handleVote u sid f n db).2
  | .comment u sid raw f n => (handleComment u sid raw f n db).2
  | .create u t d l dt f n => handleSubmit u t d l dt f n db
  | .promote k t oracle => (handler k t oracle db).2

/-- State after a sequence of operations. -/
def applyOps (ops : List Op) (db : DB) : DB :=
  ops.foldl (fun db op => applyOp op db) db

/-- The vote-ledger uniqueness invariant: at most one vote row per
(suggestion, voter) pair. -/
def VotesUnique (db : DB) : Prop :=
  ∀ sid uid, pairCount db sid uid ≤ 1

/-- `n` repetitions of `handleVote` by the same authenticated voter on the
same suggestion; `sup` supplies the fresh row id and timestamp of each call. -/
def iterVote (uid sid : Nat) (sup : Nat → Nat × Nat) : Nat → DB → DB
  | 0, db => db
  | n + 1, db => iterVote uid sid sup n (handleVote (some uid) sid (sup n).1 (sup n).2 db).2

/-- The empty database. -/
def emptyDB : DB := { suggestions := [], votes := [], comments := [], events := [] }

/-! ### Characterization of one promotion-loop iteration -/

theorem promoteStep_of_insertFail (oracle : PromoOracle) (acc : DB × List Nat)
    (s : Suggestion) (h : oracle.insertEventFails s.id = true) :
    promoteStep oracle acc s = acc := by
  unfold promoteStep
  simp [h]

theorem promoteStep_votes (oracle : PromoOracle) (acc : DB × List Nat) (s : Suggestion) :
    (promoteStep oracle acc s).1.votes = acc.1.votes
    ∨ (promoteStep oracle acc s).1.votes
        = acc.1.votes.filter (fun v => !(v.suggestion_id == s.id)) := by
  unfold promoteStep
  dsimp only
  split
  · exact Or.inl rfl
  · split <;> split <;> split <;> simp

theorem promoteStep_comments (oracle : PromoOracle) (acc : DB × List Nat) (s : Suggestion) :
    (promoteStep oracle acc s).1.comments = acc.1.comments
    ∨ (promoteStep oracle acc s).1.comments
        = acc.1.comments.filter (fun c => !(c.suggestion_id == s.id)) := by
  unfold promoteStep
  dsimp only
  split
  · exact Or.inl rfl
  · split <;> split <;> split <;> simp

theorem promoteStep_suggestions (oracle : PromoOracle) (acc : DB × List Nat) (s : Suggestion) :
    (promoteStep oracle acc s).1.suggestions = acc.1.suggestions
    ∨ (promoteStep oracle acc s).1.suggestions
        = acc.1.suggestions.filter (fun t => !(t.id == s.id)) := by
  unfold promoteStep
  dsimp only
  split
  · exact Or.inl rfl
  · split <;> split <;> split <;> simp

theorem promoteStep_events (oracle : PromoOracle) (acc : DB × List Nat) (s : Suggestion) :
    (promoteStep oracle acc s).1.events
      = acc.1.events ++ (if oracle.insertEventFails s.id then [] else [eventOfSuggestion s]) := by
  unfold promoteStep
  dsimp only
  split <;> rename_i h
  · simp [h]
  · split <;> split <;> split <;> simp [h]

theorem promoteStep_promoted (oracle : PromoOracle) (acc : DB × List Nat) (s : Suggestion) :
    (promoteStep oracle acc s).2
      = acc.2 ++ (if oracle.insertEventFails s.id then [] else [s.id]) := by
  unfold promoteStep
  dsimp only
  split <;> rename_i h
  · simp [h]
  · split <;> split <;> split <;> simp [h]

/-! ### Vote-ledger lemmas -/

theorem pairVotes_length_mono {v1 v2 : List Vote} (h : List.Sublist v1 v2)
    (sid uid : Nat) : (pairVotes v1 sid uid).length ≤ (pairVotes v2 sid uid).length :=
  (h.filter _).length_le

theorem pairCount_handleVote_self (uid sid f n : Nat) (db : DB) :
    pairCount (handleVote (some uid) sid f n db).2 sid uid
      = if pairCount db sid uid = 0 then 1 else 0 := by
  unfold handleVote pairCount pairVotes
  dsimp only
  split <;> rename_i hlen
  · have h0 : ¬ (List.filter (fun v => v.suggestion_id == sid && v.voter_id == uid) db.votes).length = 0 := by
      omega
    simp only [List.filter_filter]
    simp [h0, List.filter_eq_nil_iff]
  · have h0 : (List.filter (fun v => v.suggestion_id == sid && v.voter_id == uid) db.votes).length = 0 := by
      omega
    simp [h0, List.filter_append]

theorem VotesUnique_handleVote (u : Option Nat) (sid f n : Nat) (db : DB)
    (h : VotesUnique db) : VotesUnique (handleVote u sid f n db).2 := by
  match u with
  | none => exact h
  | some uid =>
    intro s' u'
    unfold handleVote
    dsimp only
    split <;> rename_i hlen
    · exact le_trans (pairVotes_length_mono (List.filter_sublist _) s' u') (h s' u')
    · unfold pairCount pairVotes at *
      dsimp only
      rw [List.filter_append, List.length_append]
      by_cases hmatch : ((sid == s') && (uid == u')) = true
      · obtain ⟨h1, h2⟩ := Bool.and_eq_true_iff.mp hmatch
        have hs : sid = s' := by simpa using h1
        have hu : uid = u' := by simpa using h2
        subst hs; subst hu
        have h0 : (List.filter (fun v => v.suggestion_id == sid && v.voter_id == uid) db.votes).length = 0 := by
          omega
        simp [h0]
      · simp [hmatch]
        have := h s' u'
        unfold pairCount pairVotes at this
        omega

theorem handleComment_votes (u : Option Nat) (sid : Nat) (raw : String)
    (f n : Nat) (db : DB) : (handleComment u sid raw f n db).2.votes = db.votes := by
  unfold handleComment
  dsimp only
  split
  · rfl
  · cases u <;> rfl

theorem foldl_promoteStep_votes_sublist (oracle : PromoOracle) (l : List Suggestion)
    (acc : DB × List Nat) :
    List.Sublist ((l.foldl (promoteStep oracle) acc).1.votes) acc.1.votes := by
  induction l generalizing acc with
  | nil => exact List.Sublist.refl _
  | cons s rest ih =>
    refine List.Sublist.trans (ih (promoteStep oracle acc s)) ?_
    rcases promoteStep_votes oracle acc s with hv | hv
    · rw [hv]
    · rw [hv]; exact List.filter_sublist _

theorem handler_votes_sublist (k : Option String) (t : Nat) (oracle : PromoOracle)
    (db : DB) : List.Sublist ((handler k t oracle db).2.votes) db.votes := by
  unfold handler
  dsimp only
  split
  · exact List.Sublist.refl _
  · exact foldl_promoteStep_votes_sublist oracle (toPromote t db) (db, [])

theorem VotesUnique_applyOp (op : Op) (db : DB) (h : VotesUnique db) :
    VotesUnique (applyOp op db) := by
  match op with
  | .vote u sid f n => exact VotesUnique_handleVote u sid f n db h
  | .comment u sid raw f n =>
    intro s' u'
    unfold pairCount pairVotes
    rw [show (applyOp (.comment u sid raw f n) db).votes = db.votes from
          handleComment_votes u sid raw f n db]
    exact h s' u'
  | .create u t d l dt f n => exact h
  | .promote k t oracle =>
    intro s' u'
    exact le_trans (pairVotes_length_mono (handler_votes_sublist k t oracle db) s' u') (h s' u')

theorem iterVote_pairCount (uid sid : Nat) (sup : Nat → Nat × Nat) (n : Nat)
    (db : DB) (h : pairCount db sid uid ≤ 1) :
    pairCount (iterVote uid sid sup n db) sid uid = (pairCount db sid uid + n) % 2 := by
  induction n generalizing db with
  | zero =>
    simp only [iterVote]
    omega
  | succ n ih =>
    simp only [iterVote]
    have hstep := pairCount_handleVote_self uid sid (sup n).1 (sup n).2 db
    have h' : pairCount (handleVote (some uid) sid (sup n).1 (sup n).2 db).2 sid uid ≤ 1 := by
      rw [hstep]; split <;> omega
    rw [ih _ h', hstep]
    split <;> omega

/-- C1: for every (suggestion_id, voter_id) pair and after every sequence of
operations (votes, comments, suggestion creations, promotion runs) applied
to a state satisfying the vote-ledger uniqueness invariant, at most one vote
row exists for that pair. -/
theorem vote_ledger_unique (ops : List Op) (db : DB) (h : VotesUnique db) :
    VotesUnique (applyOps ops db) := by
  induction ops generalizing db with
  | nil => exact h
  | cons op rest ih => exact ih _ (VotesUnique_applyOp op db h)

/-- Witness for C1: the invariant holds in the empty state and after a
concrete sequence of create/vote/comment/promote operations. -/
theorem vote_ledger_unique_witness :
    VotesUnique emptyDB ∧
    VotesUnique (applyOps
      [Op.create (some 7) "T" "D" "L" (some 100) 1 10,
       Op.vote (some 2) 1 50 11,
       Op.vote (some 3) 1 51 12,
       Op.comment (some 2) 1 " hi " 60 13,
       Op.promote (some "key") 1
         ⟨fun _ => false, fun _ => false, fun _ => false, fun _ => false⟩] emptyDB) := by
  have h : VotesUnique emptyDB := by
    intro sid uid
    simp [pairCount, pairVotes, emptyDB]
  exact ⟨h, vote_ledger_unique _ emptyDB h⟩

/-- C2: `castVote` is a toggle — starting from a state with no vote by voter
`uid` on suggestion `sid`, after `n` authenticated `handleVote` calls the pair
has exactly `n % 2` vote rows: one when `n` is odd, zero when `n` is even. -/
theorem castVote_toggle (uid sid n : Nat) (sup : Nat → Nat × Nat) (db : DB)
    (h : pairCount db sid uid = 0) :
    pairCount (iterVote uid sid sup n db) sid uid = n % 2
    ∧ (n % 2 = 1 → pairCount (iterVote uid sid sup n db) sid uid = 1)
    ∧ (n % 2 = 0 → pairCount (iterVote uid sid sup n db) sid uid = 0) := by
  have hiter := iterVote_pairCount uid sid sup n db (by omega)
  rw [h] at hiter
  exact ⟨by omega, fun h1 => by omega, fun h0 => by omega⟩

/-- Witness for C2: three toggling calls from the clean state leave exactly
one vote row for the pair. -/
theorem castVote_toggle_witness :
    pairCount emptyDB 1 2 = 0 ∧
    pairCount (iterVote 2 1 (fun k => (k + 100, k + 200)) 3 emptyDB) 1 2 = 3 % 2 :=
  ⟨rfl, (castVote_toggle 2 1 3 (fun k => (k + 100, k + 200)) emptyDB rfl).1⟩

/-! ### Promotion-endpoint lemmas -/

theorem handler_eq_of_key (k : Option String) (t : Nat) (oracle : PromoOracle)
    (db : DB) (hk : k.getD "" ≠ "") :
    handler k t oracle db
      = ({ status := 200,
           promoted := ((toPromote t db).foldl (promoteStep oracle) (db, [])).2,
           error := none },
         ((toPromote t db).foldl (promoteStep oracle) (db, [])).1) := by
  unfold handler
  rw [if_neg (by simpa using hk)]

theorem foldl_promoteStep_promoted (oracle : PromoOracle) (l : List Suggestion)
    (acc : DB × List Nat) :
    (l.foldl (promoteStep oracle) acc).2
      = acc.2 ++ (l.filter (fun s => !(oracle.insertEventFails s.id))).map
          (fun s => s.id) := by
  induction l generalizing acc with
  | nil => simp
  | cons s rest ih =>
    rw [List.foldl_cons, ih, promoteStep_promoted]
    by_cases h : oracle.insertEventFails s.id = true
    · simp [h, List.filter_cons]
    · simp [h, List.filter_cons]

theorem mem_toPromote (threshold : Nat) (db : DB) (s : Suggestion) :
    s ∈ toPromote threshold db
      ↔ s ∈ db.suggestions ∧ threshold ≤ (votesFor db.votes s.id).length := by
  unfold toPromote
  rw [List.mem_filter, List.mem_mergeSort]
  simp

theorem handler_promoted (k : Option String) (t : Nat) (oracle : PromoOracle)
    (db : DB) (hk : k.getD "" ≠ "") :
    (handler k t oracle db).1.promoted
      = ((toPromote t db).filter (fun s => !(oracle.insertEventFails s.id))).map
          (fun s => s.id) := by
  rw [handler_eq_of_key k t oracle db hk]
  exact foldl_promoteStep_promoted oracle (toPromote t db) (db, [])

/-- C3: with the elevated key present and no insert failures, a run of the
promotion endpoint reports a suggestion's id as promoted if and only if its
vote count is at least the configured threshold; in particular a count of
exactly `T` is promoted and a count of `T - 1` is not. -/
theorem promotion_threshold (k : Option String) (T : Nat) (oracle : PromoOracle)
    (db : DB) (s : Suggestion)
    (hk : k.getD "" ≠ "")
    (hins : ∀ sid, oracle.insertEventFails sid = false)
    (hnodup : (db.suggestions.map (fun t => t.id)).Nodup)
    (hs : s ∈ db.suggestions) :
    (s.id ∈ (handler k T oracle db).1.promoted ↔ T ≤ (votesFor db.votes s.id).length)
    ∧ ((votesFor db.votes s.id).length = T →
         s.id ∈ (handler k T oracle db).1.promoted)
    ∧ ((votesFor db.votes s.id).length + 1 = T →
         s.id ∉ (handler k T oracle db).1.promoted) := by
  have hpro : (handler k T oracle db).1.promoted
      = (toPromote T db).map (fun t => t.id) := by
    rw [handler_promoted k T oracle db hk]
    congr 1
    apply List.filter_eq_self.mpr
    intro a _
    simp [hins a.id]
  have hiff : s.id ∈ (handler k T oracle db).1.promoted
      ↔ T ≤ (votesFor db.votes s.id).length := by
    rw [hpro, List.mem_map]
    constructor
    · rintro ⟨t, ht, hid⟩
      rw [mem_toPromote] at ht
      have hts : t = s := List.inj_on_of_nodup_map hnodup ht.1 hs hid
      rw [hts] at ht
      exact ht.2
    · intro hle
      exact ⟨s, (mem_toPromote T db s).mpr ⟨hs, hle⟩, rfl⟩
  refine ⟨hiff, fun he => hiff.mpr (by omega), fun he hmem => ?_⟩
  have := hiff.mp hmem
  omega

/-- Witness for C3 at a one-suggestion, one-vote database with threshold 1. -/
theorem promotion_threshold_witness :
    ((1 ∈ (handler (some "key") 1
        ⟨fun _ => false, fun _ => false, fun _ => false, fun _ => false⟩
        { suggestions := [⟨1, "T", some "D", some "L", some 100, some 7, 10⟩],
          votes := [⟨5, 1, 2, 11⟩], comments := [], events := [] }).1.promoted
      ↔ 1 ≤ (votesFor [⟨5, 1, 2, 11⟩] 1).length)
    ∧ ((votesFor [⟨5, 1, 2, 11⟩] 1).length = 1 →
        1 ∈ (handler (some "key") 1
          ⟨fun _ => false, fun _ => false, fun _ => false, fun _ => false⟩
          { suggestions := [⟨1, "T", some "D", some "L", some 100, some 7, 10⟩],
            votes := [⟨5, 1, 2, 11⟩], comments := [], events := [] }).1.promoted)
    ∧ ((votesFor [⟨5, 1, 2, 11⟩] 1).length + 1 = 1 →
        1 ∉ (handler (some "key") 1
          ⟨fun _ => false, fun _ => false, fun _ => false, fun _ => false⟩
          { suggestions := [⟨1, "T", some "D", some "L", some 100, some 7, 10⟩],
            votes := [⟨5, 1, 2, 11⟩], comments := [], events := [] }).1.promoted)) :=
  promotion_threshold (some "key") 1
    ⟨fun _ => false, fun _ => false, fun _ => false, fun _ => false⟩
    { suggestions := [⟨1, "T", some "D", some "L", some 100, some 7, 10⟩],
      votes := [⟨5, 1, 2, 11⟩], comments := [], events := [] }
    ⟨1, "T", some "D", some "L", some 100, some 7, 10⟩
    (by decide) (fun _ => rfl) (by decide) (by decide)

/-- A one-suggestion sample state used by the concrete witnesses. -/
def sampleSuggestion : Suggestion :=
  ⟨1, "Reunion", some "Annual meetup", some "Hall", some 100, some 7, 10⟩

/-- Sample database: one suggestion with one vote and one comment. -/
def sampleDB : DB :=
  { suggestions := [sampleSuggestion],
    votes := [⟨5, 1, 2, 11⟩],
    comments := [⟨9, 1, 2, "see you there", 12⟩],
    events := [] }

/-- Oracle under which every storage write of the promotion job succeeds. -/
def noFailOracle : PromoOracle :=
  ⟨fun _ => false, fun _ => false, fun _ => false, fun _ => false⟩

/-- C5: invoking the promotion endpoint without the elevated credential
(service role key absent, or present but empty) returns the error payload
with status 500 and leaves every collection unchanged. -/
theorem promotion_missing_key (T : Nat) (oracle : PromoOracle) (db : DB) :
    handler none T oracle db
      = ({ status := 500, promoted := [], error := some "Missing service role key" }, db)
    ∧ handler (some "") T oracle db
      = ({ status := 500, promoted := [], error := some "Missing service role key" }, db) :=
  ⟨rfl, rfl⟩

theorem foldl_promoteStep_events (oracle : PromoOracle) (l : List Suggestion)
    (acc : DB × List Nat) :
    (l.foldl (promoteStep oracle) acc).1.events
      = acc.1.events ++ (l.filter (fun s => !(oracle.insertEventFails s.id))).map
          eventOfSuggestion := by
  induction l generalizing acc with
  | nil => simp
  | cons s rest ih =>
    rw [List.foldl_cons, ih, promoteStep_events]
    by_cases h : oracle.insertEventFails s.id = true
    · simp [h, List.filter_cons]
    · simp [h, List.filter_cons]

/-- C7: every suggestion the promotion job promotes yields an event record
with title, description and location copied unchanged, proposed_date mapped
to event_date, and created_by mapped to organizer_id. -/
theorem promotion_event_fields (k : Option String) (T : Nat) (oracle : PromoOracle)
    (db : DB) (s : Suggestion)
    (hk : k.getD "" ≠ "")
    (hs : s ∈ db.suggestions)
    (hq : T ≤ (votesFor db.votes s.id).length)
    (hins : oracle.insertEventFails s.id = false) :
    ∃ e ∈ (handler k T oracle db).2.events,
      e.title = s.title ∧ e.description = s.description ∧ e.location = s.location
      ∧ e.event_date = s.proposed_date ∧ e.organizer_id = s.created_by := by
  refine ⟨eventOfSuggestion s, ?_, rfl, rfl, rfl, rfl, rfl⟩
  rw [handler_eq_of_key k T oracle db hk]
  dsimp only
  rw [foldl_promoteStep_events]
  apply List.mem_append.mpr
  right
  rw [List.mem_map]
  refine ⟨s, ?_, rfl⟩
  rw [List.mem_filter]
  exact ⟨(mem_toPromote T db s).mpr ⟨hs, hq⟩, by simp [hins]⟩

/-- Witness for C7: the sample suggestion is promoted at threshold 1 and its
event carries the copied fields. -/
theorem promotion_event_fields_witness :
    ∃ e ∈ (handler (some "key") 1 noFailOracle sampleDB).2.events,
      e.title = sampleSuggestion.title
      ∧ e.description = sampleSuggestion.description
      ∧ e.location = sampleSuggestion.location
      ∧ e.event_date = sampleSuggestion.proposed_date
      ∧ e.organizer_id = sampleSuggestion.created_by :=
  promotion_event_fields (some "key") 1 noFailOracle sampleDB sampleSuggestion
    (by decide) (by decide) (by decide) rfl

/-- C10: once the event insert for a qualifying suggestion succeeds, its id is
reported as promoted and the run continues, whatever the three cleanup
deletes do — the reported set does not depend on the delete failures at all,
and the job still returns status 200. -/
theorem promotion_ignores_cleanup_failures (k : Option String) (T : Nat)
    (oracle oracle2 : PromoOracle) (db : DB) (s : Suggestion)
    (hk : k.getD "" ≠ "")
    (hs : s ∈ db.suggestions)
    (hq : T ≤ (votesFor db.votes s.id).length)
    (hins : oracle.insertEventFails s.id = false)
    (hsame : ∀ sid, oracle2.insertEventFails sid = oracle.insertEventFails sid) :
    s.id ∈ (handler k T oracle db).1.promoted
    ∧ (handler k T oracle db).1.status = 200
    ∧ (handler k T oracle2 db).1.promoted = (handler k T oracle db).1.promoted := by
  have hmem : s.id ∈ (handler k T oracle db).1.promoted := by
    rw [handler_promoted k T oracle db hk, List.mem_map]
    refine ⟨s, ?_, rfl⟩
    rw [List.mem_filter]
    exact ⟨(mem_toPromote T db s).mpr ⟨hs, hq⟩, by simp [hins]⟩
  refine ⟨hmem, ?_, ?_⟩
  · rw [handler_eq_of_key k T oracle db hk]
  · rw [handler_promoted k T oracle db hk, handler_promoted k T oracle2 db hk]
    congr 1
    apply List.filter_congr
    intro a _
    simp [hsame a.id]

/-- Witness for C10: with every cleanup delete failing, the sample
suggestion's id is still reported and the reported set matches the
no-failure run. -/
theorem promotion_ignores_cleanup_failures_witness :
    1 ∈ (handler (some "key") 1
        ⟨fun _ => false, fun _ => true, fun _ => true, fun _ => true⟩ sampleDB).1.promoted
    ∧ (handler (some "key") 1
        ⟨fun _ => false, fun _ => true, fun _ => true, fun _ => true⟩ sampleDB).1.status = 200
    ∧ (handler (some "key") 1 noFailOracle sampleDB).1.promoted
        = (handler (some "key") 1
            ⟨fun _ => false, fun _ => true, fun _ => true, fun _ => true⟩ sampleDB).1.promoted :=
  promotion_ignores_cleanup_failures (some "key") 1
    ⟨fun _ => false, fun _ => true, fun _ => true, fun _ => true⟩ noFailOracle
    sampleDB sampleSuggestion (by decide) (by decide) (by decide) rfl (fun _ => rfl)

/-! ### Preservation of a skipped candidate's rows (C4 machinery) -/

theorem filter_filter_of_imp {α : Type} (l : List α) (p q : α → Bool)
    (h : ∀ a, p a = true → q a = true) : (l.filter q).filter p = l.filter p := by
  induction l with
  | nil => rfl
  | cons a t ih =>
    by_cases hq : q a = true
    · by_cases hp : p a = true <;> simp [List.filter_cons, hq, hp, ih]
    · have hp : ¬ p a = true := fun hp => hq (h a hp)
      simp [List.filter_cons, hq, hp, ih]

theorem votesFor_filter_ne (votes : List Vote) (tid sid : Nat) (h : tid ≠ sid) :
    votesFor (votes.filter (fun v => !(v.suggestion_id == tid))) sid
      = votesFor votes sid := by
  unfold votesFor
  apply filter_filter_of_imp
  intro v hv
  have hvs : v.suggestion_id = sid := by simpa using hv
  rw [hvs]
  simpa using fun he => h he.symm

theorem commentsFor_filter_ne (comments : List Comment) (tid sid : Nat) (h : tid ≠ sid) :
    commentsFor (comments.filter (fun c => !(c.suggestion_id == tid))) sid
      = commentsFor comments sid := by
  unfold commentsFor
  apply filter_filter_of_imp
  intro c hc
  have hcs : c.suggestion_id = sid := by simpa using hc
  rw [hcs]
  simpa using fun he => h he.symm

theorem foldl_promoteStep_votesFor (oracle : PromoOracle) (l : List Suggestion)
    (sid : Nat) :
    ∀ acc : DB × List Nat,
      (∀ t ∈ l, t.id = sid → oracle.insertEventFails t.id = true) →
      votesFor (l.foldl (promoteStep oracle) acc).1.votes sid
        = votesFor acc.1.votes sid := by
  induction l with
  | nil => intro acc _; rfl
  | cons c rest ih =>
    intro acc hall
    rw [List.foldl_cons,
        ih (promoteStep oracle acc c)
          (fun t ht hts => hall t (List.mem_cons_of_mem c ht) hts)]
    by_cases hcf : oracle.insertEventFails c.id = true
    · rw [promoteStep_of_insertFail oracle acc c hcf]
    · have hne : c.id ≠ sid := fun he => hcf (hall c (List.mem_cons_self c rest) he)
      rcases promoteStep_votes oracle acc c with hv | hv
      · rw [hv]
      · rw [hv, votesFor_filter_ne _ _ _ hne]

theorem foldl_promoteStep_commentsFor (oracle : PromoOracle) (l : List Suggestion)
    (sid : Nat) :
    ∀ acc : DB × List Nat,
      (∀ t ∈ l, t.id = sid → oracle.insertEventFails t.id = true) →
      commentsFor (l.foldl (promoteStep oracle) acc).1.comments sid
        = commentsFor acc.1.comments sid := by
  induction l with
  | nil => intro acc _; rfl
  | cons c rest ih =>
    intro acc hall
    rw [List.foldl_cons,
        ih (promoteStep oracle acc c)
          (fun t ht hts => hall t (List.mem_cons_of_mem c ht) hts)]
    by_cases hcf : oracle.insertEventFails c.id = true
    · rw [promoteStep_of_insertFail oracle acc c hcf]
    · have hne : c.id ≠ sid := fun he => hcf (hall c (List.mem_cons_self c rest) he)
      rcases promoteStep_comments oracle acc c with hc | hc
      · rw [hc]
      · rw [hc, commentsFor_filter_ne _ _ _ hne]

theorem foldl_promoteStep_suggestions_mem (oracle : PromoOracle)
    (l : List Suggestion) (s : Suggestion) :
    ∀ acc : DB × List Nat,
      s ∈ acc.1.suggestions →
      (∀ t ∈ l, t.id = s.id → oracle.insertEventFails t.id = true) →
      s ∈ (l.foldl (promoteStep oracle) acc).1.suggestions := by
  induction l with
  | nil => intro acc hs _; exact hs
  | cons c rest ih =>
    intro acc hs hall
    rw [List.foldl_cons]
    apply ih (promoteStep oracle acc c) ?_
      (fun t ht hts => hall t (List.mem_cons_of_mem c ht) hts)
    by_cases hcf : oracle.insertEventFails c.id = true
    · rw [promoteStep_of_insertFail oracle acc c hcf]; exact hs
    · have hne : c.id ≠ s.id := fun he => hcf (hall c (List.mem_cons_self c rest) he)
      rcases promoteStep_suggestions oracle acc c with hsg | hsg
      · rw [hsg]; exact hs
      · rw [hsg, List.mem_filter]
        exact ⟨hs, by simpa using fun he => hne he.symm⟩

/-- C4: if the event insert fails for a qualifying suggestion, the run leaves
that suggestion and all of its votes and comments in place, does not report
its id, still returns status 200, and still promotes every other qualifying
candidate whose insert succeeds. -/
theorem promotion_insert_failure_skips (k : Option String) (T : Nat)
    (oracle : PromoOracle) (db : DB) (s : Suggestion)
    (hk : k.getD "" ≠ "")
    (hs : s ∈ db.suggestions)
    (hfail : oracle.insertEventFails s.id = true) :
    s ∈ (handler k T oracle db).2.suggestions
    ∧ votesFor (handler k T oracle db).2.votes s.id = votesFor db.votes s.id
    ∧ commentsFor (handler k T oracle db).2.comments s.id
        = commentsFor db.comments s.id
    ∧ s.id ∉ (handler k T oracle db).1.promoted
    ∧ (handler k T oracle db).1.status = 200
    ∧ (∀ t ∈ db.suggestions, oracle.insertEventFails t.id = false →
         T ≤ (votesFor db.votes t.id).length →
         t.id ∈ (handler k T oracle db).1.promoted) := by
  have hall : ∀ t ∈ toPromote T db, t.id = s.id →
      oracle.insertEventFails t.id = true := by
    intro t _ hts
    rw [hts]
    exact hfail
  rw [handler_eq_of_key k T oracle db hk]
  dsimp only
  refine ⟨?_, ?_, ?_, ?_, rfl, ?_⟩
  · exact foldl_promoteStep_suggestions_mem oracle (toPromote T db) s (db, []) hs hall
  · exact foldl_promoteStep_votesFor oracle (toPromote T db) s.id (db, []) hall
  · exact foldl_promoteStep_commentsFor oracle (toPromote T db) s.id (db, []) hall
  · rw [foldl_promoteStep_promoted]
    simp only [List.nil_append, List.mem_map]
    rintro ⟨t, htf, hid⟩
    rw [List.mem_filter] at htf
    have htrue := hall t htf.1 hid
    rw [htrue] at htf
    simp at htf
  · intro t ht hf hq
    rw [foldl_promoteStep_promoted]
    simp only [List.nil_append, List.mem_map]
    exact ⟨t, List.mem_filter.mpr
      ⟨(mem_toPromote T db t).mpr ⟨ht, hq⟩, by simp [hf]⟩, rfl⟩

/-- Oracle that fails the event insert exactly for suggestion id 1. -/
def failOracle1 : PromoOracle :=
  ⟨fun sid => sid == 1, fun _ => false, fun _ => false, fun _ => false⟩

/-- Two-suggestion sample state: both qualify at threshold 1. -/
def twoDB : DB :=
  { suggestions := [⟨1, "A", none, none, none, some 7, 10⟩,
                    ⟨2, "B", none, none, none, some 8, 20⟩],
    votes := [⟨100, 1, 2, 11⟩, ⟨101, 2, 3, 21⟩],
    comments := [⟨50, 1, 2, "c1", 12⟩],
    events := [] }

/-- Witness for C4: suggestion 1's insert fails — its rows survive and its id
is absent from the report, while suggestion 2 is still promoted. -/
theorem promotion_insert_failure_skips_witness :
    (⟨1, "A", none, none, none, some 7, 10⟩ : Suggestion)
        ∈ (handler (some "key") 1 failOracle1 twoDB).2.suggestions
    ∧ votesFor (handler (some "key") 1 failOracle1 twoDB).2.votes 1
        = votesFor twoDB.votes 1
    ∧ commentsFor (handler (some "key") 1 failOracle1 twoDB).2.comments 1
        = commentsFor twoDB.comments 1
    ∧ 1 ∉ (handler (some "key") 1 failOracle1 twoDB).1.promoted
    ∧ (handler (some "key") 1 failOracle1 twoDB).1.status = 200
    ∧ (∀ t ∈ twoDB.suggestions, failOracle1.insertEventFails t.id = false →
         1 ≤ (votesFor twoDB.votes t.id).length →
         t.id ∈ (handler (some "key") 1 failOracle1 twoDB).1.promoted) :=
  promotion_insert_failure_skips (some "key") 1 failOracle1 twoDB
    ⟨1, "A", none, none, none, some 7, 10⟩ (by decide) (by decide) rfl

/-! ### Idempotence machinery (C6) -/

theorem foldl_promoteStep_suggestions_sublist (oracle : PromoOracle)
    (l : List Suggestion) :
    ∀ acc : DB × List Nat,
      List.Sublist ((l.foldl (promoteStep oracle) acc).1.suggestions)
        acc.1.suggestions := by
  induction l with
  | nil => intro acc; exact List.Sublist.refl _
  | cons s rest ih =>
    intro acc
    refine List.Sublist.trans (ih (promoteStep oracle acc s)) ?_
    rcases promoteStep_suggestions oracle acc s with h | h
    · rw [h]
    · rw [h]; exact List.filter_sublist _

theorem promoteStep_suggestions_of_ok (oracle : PromoOracle) (acc : DB × List Nat)
    (c : Suggestion) (hif : oracle.insertEventFails c.id = false)
    (hdf : oracle.deleteSuggestionFails c.id = false) :
    (promoteStep oracle acc c).1.suggestions
      = acc.1.suggestions.filter (fun t => !(t.id == c.id)) := by
  unfold promoteStep
  dsimp only
  simp only [hif, Bool.false_eq_true, if_false, hdf]
  split <;> split <;> rfl

theorem foldl_promoteStep_candidate_deleted (oracle : PromoOracle)
    (l : List Suggestion) :
    ∀ acc : DB × List Nat, ∀ c ∈ l,
      oracle.insertEventFails c.id = false →
      oracle.deleteSuggestionFails c.id = false →
      ∀ s ∈ (l.foldl (promoteStep oracle) acc).1.suggestions, s.id ≠ c.id := by
  induction l with
  | nil =>
    intro acc c hc
    cases hc
  | cons d rest ih =>
    intro acc c hc hif hdf s hsmem
    rw [List.foldl_cons] at hsmem
    rcases List.mem_cons.mp hc with hcd | hcr
    · subst hcd
      have hsub := foldl_promoteStep_suggestions_sublist oracle rest
        (promoteStep oracle acc c)
      have hmem2 : s ∈ (promoteStep oracle acc c).1.suggestions :=
        hsub.subset hsmem
      rw [promoteStep_suggestions_of_ok oracle acc c hif hdf, List.mem_filter] at hmem2
      simpa using hmem2.2
    · exact ih (promoteStep oracle acc d) c hcr hif hdf s hsmem

/-- C6: a fully successful promotion run is idempotent — a second run
immediately afterwards (no new votes in between) reports an empty promoted
set, because every qualifying suggestion was already promoted and removed. -/
theorem promotion_idempotent (k k2 : Option String) (T : Nat)
    (oracle1 oracle2 : PromoOracle) (db : DB)
    (hk : k.getD "" ≠ "") (hk2 : k2.getD "" ≠ "")
    (h1 : ∀ sid, oracle1.insertEventFails sid = false)
    (_h2 : ∀ sid, oracle1.deleteVotesFails sid = false)
    (_h3 : ∀ sid, oracle1.deleteCommentsFails sid = false)
    (h4 : ∀ sid, oracle1.deleteSuggestionFails sid = false) :
    (handler k2 T oracle2 (handler k T oracle1 db).2).1.promoted = [] := by
  have key : ∀ a ∈ (handler k T oracle1 db).2.suggestions,
      ¬ (T ≤ (votesFor (handler k T oracle1 db).2.votes a.id).length) := by
    intro a ha hT
    have hsubS : List.Sublist (handler k T oracle1 db).2.suggestions db.suggestions := by
      rw [handler_eq_of_key k T oracle1 db hk]
      exact foldl_promoteStep_suggestions_sublist oracle1 (toPromote T db) (db, [])
    have hvsub := handler_votes_sublist k T oracle1 db
    have hcount : (votesFor (handler k T oracle1 db).2.votes a.id).length
        ≤ (votesFor db.votes a.id).length := (hvsub.filter _).length_le
    have haCand : a ∈ toPromote T db :=
      (mem_toPromote T db a).mpr ⟨hsubS.subset ha, le_trans hT hcount⟩
    have hfold : a ∈ ((toPromote T db).foldl (promoteStep oracle1) (db, [])).1.suggestions := by
      rw [handler_eq_of_key k T oracle1 db hk] at ha
      exact ha
    exact foldl_promoteStep_candidate_deleted oracle1 (toPromote T db) (db, [])
      a haCand (h1 a.id) (h4 a.id) a hfold rfl
  rw [handler_promoted k2 T oracle2 (handler k T oracle1 db).2 hk2]
  have hempty : toPromote T (handler k T oracle1 db).2 = [] := by
    unfold toPromote
    apply List.filter_eq_nil_iff.mpr
    intro a ha
    rw [List.mem_mergeSort] at ha
    simpa using key a ha
  rw [hempty]
  rfl

/-- Witness for C6: after one fully successful run on the sample state, a
second run reports nothing. -/
theorem promotion_idempotent_witness :
    (handler (some "key") 1 noFailOracle
      (handler (some "key") 1 noFailOracle sampleDB).2).1.promoted = [] :=
  promotion_idempotent (some "key") (some "key") 1 noFailOracle noFailOracle
    sampleDB (by decide) (by decide)
    (fun _ => rfl) (fun _ => rfl) (fun _ => rfl) (fun _ => rfl)

/-! ### Feed ordering (C8) and comment validation (C9) -/

/-- The comment ledger is in creation order: each stored comment's timestamp
is at most every later one's (the append-only ledger maintains this, since a
new comment is stamped with the current time). -/
def commentsChronological (comments : List Comment) : Prop :=
  comments.Pairwise (fun c d => c.created_at ≤ d.created_at)

theorem commentsChronological_handleComment (u : Option Nat) (sid : Nat)
    (raw : String) (f n : Nat) (db : DB)
    (h : commentsChronological db.comments)
    (hnow : ∀ c ∈ db.comments, c.created_at ≤ n) :
    commentsChronological (handleComment u sid raw f n db).2.comments := by
  unfold handleComment
  dsimp only
  split
  · exact h
  · cases u with
    | none => exact h
    | some uid =>
      unfold commentsChronological at *
      dsimp only
      rw [List.pairwise_append]
      refine ⟨h, List.pairwise_singleton _ _, ?_⟩
      intro c hc d hd
      rw [List.mem_singleton] at hd
      subst hd
      exact hnow c hc

/-- C8: when the comment ledger is in chronological (creation) order, every
feed item returned by `fetchSuggestions` lists its comments in ascending
order of `created_at` — the feed keeps ledger order within each suggestion. -/
theorem feed_comments_sorted (db : DB)
    (h : commentsChronological db.comments) :
    ∀ item ∈ fetchSuggestions db,
      item.comments.Pairwise (fun c d => c.created_at ≤ d.created_at) := by
  intro item hitem
  unfold fetchSuggestions at hitem
  rw [List.mem_map] at hitem
  obtain ⟨s, _, hmap⟩ := hitem
  rw [← hmap]
  dsimp only
  unfold commentsFor
  exact h.sublist (List.filter_sublist _)

/-- Witness for C8: a two-comment ledger in creation order yields a sorted
feed. -/
theorem feed_comments_sorted_witness :
    commentsChronological
      ({ suggestions := [⟨1, "T", none, none, none, some 7, 10⟩],
         votes := [], comments := [⟨1, 1, 2, "a", 5⟩, ⟨2, 1, 3, "b", 7⟩],
         events := [] } : DB).comments
    ∧ (∀ item ∈ fetchSuggestions
        { suggestions := [⟨1, "T", none, none, none, some 7, 10⟩],
          votes := [], comments := [⟨1, 1, 2, "a", 5⟩, ⟨2, 1, 3, "b", 7⟩],
          events := [] },
        item.comments.Pairwise (fun c d => c.created_at ≤ d.created_at)) :=
  ⟨by unfold commentsChronological; decide,
   feed_comments_sorted
     { suggestions := [⟨1, "T", none, none, none, some 7, 10⟩],
       votes := [], comments := [⟨1, 1, 2, "a", 5⟩, ⟨2, 1, 3, "b", 7⟩],
       events := [] } (by unfold commentsChronological; decide)⟩

/-- C9 counterexample: with an absent commenter identity AND content that is
blank after trimming, `handleComment` takes the blank-content early return
(the trim check precedes the auth lookup), so the call does not fail with
the login prompt as the claim requires. -/
theorem comment_unauthenticated_counterexample :
    (handleComment none 1 "   " 0 0 emptyDB).1 = CommentOutcome.blankContent
    ∧ ¬ (handleComment none 1 "   " 0 0 emptyDB).1 = CommentOutcome.loginRequired
    ∧ (handleComment none 1 "   " 0 0 emptyDB).2 = emptyDB := by
  refine ⟨by decide, by decide, by decide⟩

/-- C9 (amended): content blank after trimming fails with the blank-content
(EmptyContent) early return and writes nothing, regardless of identity; an
absent commenter identity with non-blank content fails with the login prompt
(Unauthenticated) and writes nothing. -/
theorem comment_validation (u : Option Nat) (sid : Nat) (raw : String)
    (f n : Nat) (db : DB)
    (h : jsTrim raw = "" ∨ u = none) :
    (handleComment u sid raw f n db).2 = db
    ∧ (handleComment u sid raw f n db).1
        = (if jsTrim raw = "" then CommentOutcome.blankContent
           else CommentOutcome.loginRequired) := by
  unfold handleComment
  dsimp only
  by_cases hb : jsTrim raw = ""
  · simp [hb]
  · rcases h with h | h
    · exact absurd h hb
    · subst h
      simp [hb]

/-- Witness for C9's amended statement: absent identity with non-blank
content yields the login prompt and no write. -/
theorem comment_validation_witness :
    (jsTrim "x" = "" ∨ (none : Option Nat) = none)
    ∧ ((handleComment none 1 "x" 0 0 emptyDB).2 = emptyDB
       ∧ (handleComment none 1 "x" 0 0 emptyDB).1
           = (if jsTrim "x" = "" then CommentOutcome.blankContent
              else CommentOutcome.loginRequired)) :=
  ⟨Or.inr rfl, comment_validation none 1 "x" 0 0 emptyDB (Or.inr rfl)⟩

end DmeConnect
